import Mathlib

/-!
Verification of the trenitalia-open-api client (src/functions.ts, src/types.ts)
against its natural-language specification.

The TypeScript source is shallowly embedded: every network call becomes an
explicit `transport` argument of type `Except String (HttpResponse α)`
(`.error` = transport failure / axios rejection, `.ok` = a response carrying an
HTTP status and parsed body); `try { ... } catch (err) { ... }` becomes a match
on an `Except` computation; functions whose JS code can return either the
declared value or the caught error object return `String ⊕ α`.
JavaScript string operations (`split`, `trim`, `Number`) and the keyed-`Map`
deduplication idiom are modelled by executable Lean functions below.
-/

deriving instance DecidableEq for Except

namespace Trenitalia

/-- JS `String.prototype.split(sep)` helper: if `sep` is a prefix of `cs`,
return the remainder after it. -/
def matchSep : List Char → List Char → Option (List Char)
  | [], rest => some rest
  | _ :: _, [] => none
  | s :: ss, c :: cs => if c = s then matchSep ss cs else none

/-- Fuel-driven worker for `jsSplit`; the fuel is an upper bound on the number
of characters still to scan, so it never runs out for `fuel ≥ length + 1`. -/
def jsSplitAux (sep : List Char) : Nat → List Char → List Char → List (List Char)
  | _, [], acc => [acc.reverse]
  | 0, cs, acc => [acc.reverse ++ cs]
  | fuel + 1, c :: cs, acc =>
    match matchSep sep (c :: cs) with
    | some rest => acc.reverse :: jsSplitAux sep fuel rest []
    | none => jsSplitAux sep fuel cs (c :: acc)

/-- JS `s.split(sep)` for a non-empty separator (the source only splits on
`"\n"`, `"|"`, `"-"`, `" - "`, `":"` and `" "`): scan left to right, cut at
each occurrence of `sep`, keep empty pieces. Always returns a non-empty list. -/
def jsSplit (s sep : String) : List String :=
  (jsSplitAux sep.data (s.data.length + 1) s.data []).map List.asString

/-- JS `s.trim()`: strip whitespace from both ends. -/
def jsTrim (s : String) : String :=
  (((s.data.dropWhile Char.isWhitespace).reverse.dropWhile Char.isWhitespace).reverse).asString

/-- JS `Number(s)` restricted to the shapes the source feeds it: optional
whitespace around a nonnegative decimal integer (`Number("") = 0` as in JS);
every other string is mapped to `none`, modelling `NaN`. -/
def jsNumber (s : String) : Option Nat :=
  let t := (jsTrim s).data
  if t.all Char.isDigit then some (t.foldl (fun acc c => acc * 10 + (c.toNat - 48)) 0)
  else none

/-- JS `Number(x)` where `x` may be `undefined` (e.g. a missing array element
from destructuring): `Number(undefined)` is `NaN`. -/
def jsNumberU : Option String → Option Nat
  | none => none
  | some s => jsNumber s

/-- The decimal digit character for `d` (meaningful for `d < 10`). -/
def digitChar (d : Nat) : Char := Char.ofNat (48 + d)

/-- Little-endian decimal digit characters of `n`; fuel-driven so that it is
structurally recursive (any `fuel ≥ n` with `fuel ≥ 1` is enough). -/
def natDigitsAux : Nat → Nat → List Char
  | 0, _ => []
  | fuel + 1, n => if n < 10 then [digitChar n] else digitChar (n % 10) :: natDigitsAux fuel (n / 10)

/-- JS template-literal rendering `${n}` of a nonnegative number. -/
def jsNatRepr (n : Nat) : String :=
  ((natDigitsAux (n + 1) n).reverse).asString

/-- The template-literal key `` `${x}-${y}` `` used by the source both for
segment deduplication (`` `${el.trattaAB}-${el.trattaBA}` ``) and for train
deduplication (`` `${t.trainNumber}-${t.regionId}` ``). -/
def jsKey2 (x y : Nat) : String :=
  jsNatRepr x ++ "-" ++ jsNatRepr y

/-- One insertion step of a JS `Map` built from an entry list: setting an
existing key replaces its value in place (keeping the original position),
setting a fresh key appends the entry at the end. -/
def jsMapInsert {α : Type} (m : List (String × α)) (k : String) (v : α) : List (String × α) :=
  if m.any (fun p => p.1 == k) then m.map (fun p => if p.1 == k then (k, v) else p)
  else m ++ [(k, v)]

/-- `new Map(pairs)`: the entry list of a JS `Map` constructed from a list of
key/value pairs, in iteration order. -/
def jsMapOfPairs {α : Type} (l : List (String × α)) : List (String × α) :=
  l.foldl (fun m p => jsMapInsert m p.1 p.2) []

/-- `Array.from(map.values())`. -/
def jsMapValues {α : Type} (m : List (String × α)) : List α :=
  m.map (·.2)

/-- An axios HTTP response: status code and already-parsed body. -/
structure HttpResponse (α : Type) where
  status : Nat
  data : α
deriving Repr, DecidableEq

/-- The outcome of `await axios.get(...)`: `.error` models a rejected promise
(transport failure; its payload stands for the caught error object),
`.ok` a resolved response. -/
abbrev Transport (α : Type) := Except String (HttpResponse α)

/-! ### Station catalog (`getAllStations`) -/

/-- The fields of one element of the `elencoStazioni` response body that
`getAllStations` reads. Coordinates are carried verbatim, modelled as `Int`. -/
structure RawStation where
  codStazione : String
  nomeLungo : String
  nomeCitta : String
  lat : Int
  lon : Int
deriving Repr, DecidableEq

/-- `mapStation` from src/types.ts. -/
structure mapStation where
  stationId : String
  name : String
  city : String
  location : Int × Int
deriving Repr, DecidableEq

/-- The per-element transform inside `getAllStations`. -/
def stationOfRaw (el : RawStation) : mapStation :=
  { stationId := el.codStazione, name := el.nomeLungo, city := el.nomeCitta,
    location := (el.lat, el.lon) }

/-- `getAllStations`: on a 200 response map the body, otherwise throw; the
surrounding `catch` turns any failure into `[]`. -/
def getAllStations (transport : Transport (List RawStation)) : List mapStation :=
  match transport with
  | .error _ => []
  | .ok response =>
    if response.status = 200 then response.data.map stationOfRaw
    else []

/-! ### Segment catalog (`getAllSegments`) -/

/-- The fields of one element of the `elencoTratte` response body that
`getAllSegments` reads. The upstream `trattaAB`/`trattaBA` identifiers are
nonnegative numbers, modelled as `Nat`. -/
structure RawSegment where
  nodoA : String
  nodoB : String
  trattaAB : Nat
  trattaBA : Nat
  latitudineA : Int
  longitudineA : Int
  latitudineB : Int
  longitudineB : Int
  occupata : Bool
deriving Repr, DecidableEq

/-- `mapSegment` from src/types.ts. -/
structure mapSegment where
  stationIdA : String
  stationIdB : String
  segmentIdAB : Nat
  segmentIdBA : Nat
  locationA : Int × Int
  locationB : Int × Int
  busy : Bool
deriving Repr, DecidableEq

/-- The per-element transform at the end of `getAllSegments`. -/
def segOfRaw (el : RawSegment) : mapSegment :=
  { stationIdA := el.nodoA, stationIdB := el.nodoB,
    segmentIdAB := el.trattaAB, segmentIdBA := el.trattaBA,
    locationA := (el.latitudineA, el.longitudineA),
    locationB := (el.latitudineB, el.longitudineB),
    busy := el.occupata }

/-- The `unique` collapsing step of `getAllSegments`:
`Array.from(new Map(trainLines.map(el => [`${el.trattaAB}-${el.trattaBA}`, el])).values())`. -/
def uniqueSegments (trainLines : List RawSegment) : List RawSegment :=
  jsMapValues (jsMapOfPairs (trainLines.map fun el => (jsKey2 el.trattaAB el.trattaBA, el)))

/-- `getAllSegments(unique, busy)`: on a 200 response, optionally filter to
occupied segments, optionally collapse to unique `(trattaAB, trattaBA)` pairs,
then map to `mapSegment`; any failure is caught and becomes `[]`. -/
def getAllSegments (unique busy : Bool) (transport : Transport (List RawSegment)) :
    List mapSegment :=
  match transport with
  | .error _ => []
  | .ok response =>
    if response.status = 200 then
      let trainLines := response.data
      let trainLines := if busy then trainLines.filter (·.occupata) else trainLines
      let trainLines := if unique then uniqueSegments trainLines else trainLines
      trainLines.map segOfRaw
    else []

/-! ### Train aggregator (`getAllTrains`) -/

/-- The fields of one raw train record (`tr` inside a `dettagliTratta`
response) that `getAllTrains` reads. -/
structure RawTrain where
  arrivato : Bool
  nonPartito : Bool
  circolante : Bool
  inStazione : Bool
  dataPartenzaTreno : Nat
  tratta : Nat
  regione : Nat
  categoria : String
  compNumeroTreno : String
  numeroTreno : Nat
  haCambiNumero : Bool
  origine : String
  codOrigine : String
  destinazione : String
  codDestinazione : String
  compDurata : String
  ritardo : Int
  ultimoRilev : Nat
deriving Repr, DecidableEq

/-- One element of a `dettagliTratta` response body: only its `treni` array is
read. -/
structure SegmentDetail where
  treni : List RawTrain
deriving Repr, DecidableEq

/-- The normalized train record built by `getAllTrains`. `travelDuration` is
`Option Nat` because the JS arithmetic yields `NaN` on a malformed
`compDurata`. -/
structure Train where
  departed : Bool
  arrived : Bool
  travelling : Bool
  inStation : Bool
  departureTime : Nat
  segmentId : Nat
  regionId : Nat
  trainCategory : String
  trainNumber : Nat
  changingNumber : Bool
  stationA : String
  stationIdA : String
  stationB : String
  stationIdB : String
  travelDuration : Option Nat
  delay : Int
  latestDetection : Nat
deriving Repr, DecidableEq

/-- The aggregator's filter predicate: `el => !el.arrivato || !el.nonPartito`. -/
def keepTrain (el : RawTrain) : Bool :=
  !el.arrivato || !el.nonPartito

/-- `const [hours, minutes] = el.compDurata.split(':');
(Number(hours) * 60) + Number(minutes)` — destructuring a missing second
element gives `undefined`, and `NaN` propagates through the arithmetic. -/
def durataMin (compDurata : String) : Option Nat :=
  let parts := jsSplit compDurata ":"
  match jsNumberU (parts.get? 0), jsNumberU (parts.get? 1) with
  | some hours, some minutes => some (hours * 60 + minutes)
  | _, _ => none

/-- The `newData` record built for each kept raw train record. -/
def normalizeTrain (el : RawTrain) : Train :=
  { departed := !el.nonPartito,
    arrived := el.arrivato,
    travelling := el.circolante,
    inStation := el.inStazione,
    departureTime := el.dataPartenzaTreno,
    segmentId := el.tratta,
    regionId := el.regione,
    trainCategory :=
      if el.categoria ≠ "" then el.categoria
      else (jsSplit (jsTrim el.compNumeroTreno) " ").headD "",
    trainNumber := el.numeroTreno,
    changingNumber := el.haCambiNumero,
    stationA := el.origine,
    stationIdA := el.codOrigine,
    stationB := el.destinazione,
    stationIdB := el.codDestinazione,
    travelDuration := durataMin el.compDurata,
    delay := el.ritardo,
    latestDetection := el.ultimoRilev }

/-- The final deduplication of `getAllTrains`:
`Array.from(new Map(allTrains.map(t => [`${t.trainNumber}-${t.regionId}`, t])).values())`. -/
def dedupTrains (allTrains : List Train) : List Train :=
  jsMapValues (jsMapOfPairs (allTrains.map fun t => (jsKey2 t.trainNumber t.regionId, t)))

/-- `getAllTrains`: fetch the unique segment set, fan out one `dettagliTratta`
request per segment (`Promise.all` rejects with the error of a failing
request; the model picks the first failing one in list order), flatten the
`treni` arrays, filter, normalize, deduplicate. The `catch` returns the raw
error object (`Sum.inl`) instead of the train list (`Sum.inr`). -/
def getAllTrains (segTransport : Transport (List RawSegment))
    (detail : Nat → Nat → Except String (List SegmentDetail)) : String ⊕ List Train :=
  let segments := getAllSegments true false segTransport
  match segments.mapM (fun el => detail el.segmentIdAB el.segmentIdBA) with
  | .error err => .inl err
  | .ok responses =>
    let data := (responses.map (fun el => (el.map (·.treni)).flatten)).flatten
    let allTrains := (data.filter keepTrain).map normalizeTrain
    .inr (dedupTrains allTrains)

/-! ### Region lookup (`getStationRegionId`) -/

/-- `getStationRegionId`: return the body of a 200 response, and the sentinel
`-1` on any failure. -/
def getStationRegionId (transport : Transport Int) : Int :=
  match transport with
  | .error _ => -1
  | .ok res => if res.status = 200 then res.data else -1

/-! ### Train locator (`getTrainAutocomplete`) -/

/-- One parsed autocomplete match. `stationA`/`stationIdA` are `Option`
because in JS an out-of-range array index yields `undefined` without any
fault being raised. -/
structure AutoMatch where
  trainNumber : String
  stationA : Option String
  stationIdA : Option String
deriving Repr, DecidableEq

/-- The per-line transform of `getTrainAutocomplete`:
`text = el.split('|')`, then `text[1].split('-')[0]`, `text[0].split(' - ')[1]`
and `text[1].split('-')[1]`. When the line has no `'|'`, `text[1]` is
`undefined` and `text[1].split` throws a `TypeError`. -/
def parseAutoLine (el : String) : Except String AutoMatch :=
  let text := jsSplit el "|"
  match text.get? 1 with
  | none => .error "TypeError: text[1] is undefined"
  | some t1 =>
    .ok { trainNumber := (jsSplit t1 "-").headD "",
          stationA := (jsSplit (text.headD "") " - ").get? 1,
          stationIdA := (jsSplit t1 "-").get? 1 }

/-- `getTrainAutocomplete`: split the text body on newlines, drop empty lines,
parse each remaining line (a parse fault is caught and the error object is
returned); on a non-200 status the thrown string is caught and returned. The
source's `if (result.length === 0) return [] else return result` returns the
same list in both branches. -/
def getTrainAutocomplete (transport : Transport String) : String ⊕ List AutoMatch :=
  match transport with
  | .error err => .inl err
  | .ok res =>
    if res.status = 200 then
      let response := jsSplit res.data "\n"
      match (response.filter (· ≠ "")).mapM parseAutoLine with
      | .error err => .inl err
      | .ok result => .inr result
    else .inl "code not 200"

/-! ### Stop-info fetcher (`getTrainStopsInfo`) -/

/-- Indexing `[segmentN]` into the value returned by `getTrainAutocomplete`.
A caught axios error is an `Error` object with no numeric properties, so
indexing it yields `undefined` (`none`); on a list, `none` models an
out-of-range index. -/
def autoIndex (v : String ⊕ List AutoMatch) (segmentN : Nat) : Option AutoMatch :=
  match v with
  | .inl _ => none
  | .inr result => result.get? segmentN

/-- `stationIdA ?? (await getTrainAutocomplete(trainNumber))[segmentN].stationIdA`:
reading `.stationIdA` off an `undefined` element throws; an `undefined`
`stationIdA` field is itself carried into the request URL as the text
`"undefined"`. -/
def resolveStationId (stationIdA : Option String) (segmentN : Nat)
    (auto : String ⊕ List AutoMatch) : Except String String :=
  match stationIdA with
  | some s => .ok s
  | none =>
    match autoIndex auto segmentN with
    | none => .error "TypeError: cannot read stationIdA of undefined"
    | some m => .ok (m.stationIdA.getD "undefined")

/-- The `fermata` sub-object of one `tratteCanvas` element, with the fields
`getTrainStopsInfo` reads. Timestamps that may be `null` are `Option Nat`. -/
structure CanvasFermata where
  arrivo_teorico : Option Nat
  arrivoReale : Option Nat
  partenza_teorica : Option Nat
  partenzaReale : Option Nat
  ritardoArrivo : Int
  ritardoPartenza : Int
  binarioProgrammatoPartenzaDescrizione : Option String
  binarioProgrammatoArrivoDescrizione : Option String
  binarioEffettivoPartenzaDescrizione : Option String
  binarioEffettivoArrivoDescrizione : Option String
deriving Repr, DecidableEq

/-- One element of a `tratteCanvas` response body. -/
structure CanvasStop where
  id : String
  stazione : String
  first : Bool
  last : Bool
  stazioneCorrente : Bool
  fermata : CanvasFermata
deriving Repr, DecidableEq

/-- `trainStopInfo` from src/types.ts (nullable fields as `Option`). -/
structure trainStopInfo where
  stationId : String
  name : String
  isFirstStop : Bool
  isLastStop : Bool
  isCurrentStop : Bool
  expectedArrival : Option Nat
  actualArrival : Option Nat
  expectedDeparture : Option Nat
  actualDeparture : Option Nat
  delayAtArrival : Int
  delayAtDeparture : Int
  expectedPlatform : Option String
  actualPlatform : Option String
deriving Repr, DecidableEq

/-- The per-element transform inside `getTrainStopsInfo`. -/
def stopInfoOfCanvas (el : CanvasStop) : trainStopInfo :=
  { stationId := el.id, name := el.stazione,
    isFirstStop := el.first, isLastStop := el.last,
    isCurrentStop := el.stazioneCorrente,
    expectedArrival := el.fermata.arrivo_teorico,
    actualArrival := el.fermata.arrivoReale,
    expectedDeparture := el.fermata.partenza_teorica,
    actualDeparture := el.fermata.partenzaReale,
    delayAtArrival := el.fermata.ritardoArrivo,
    delayAtDeparture := el.fermata.ritardoPartenza,
    expectedPlatform :=
      if el.first then el.fermata.binarioProgrammatoPartenzaDescrizione
      else el.fermata.binarioProgrammatoArrivoDescrizione,
    actualPlatform :=
      if el.first then el.fermata.binarioEffettivoPartenzaDescrizione
      else el.fermata.binarioEffettivoArrivoDescrizione }

/-- `getTrainStopsInfo(trainNumber, stationIdA?, segmentN)`: resolve the
departure-station id (possibly via autocomplete), fetch `tratteCanvas` for it,
map the body on a 200 status; any fault anywhere is caught and `[]` is
returned. `auto` is the value of `await getTrainAutocomplete(trainNumber)` and
`transport` maps the resolved station id to the response. -/
def getTrainStopsInfo (stationIdA : Option String) (segmentN : Nat)
    (auto : String ⊕ List AutoMatch)
    (transport : String → Transport (List CanvasStop)) : List trainStopInfo :=
  match resolveStationId stationIdA segmentN auto with
  | .error _ => []
  | .ok stationId =>
    match transport stationId with
    | .error _ => []
    | .ok res =>
      if res.status = 200 then res.data.map stopInfoOfCanvas
      else []

/-! ### Full train-info fetcher (`getTrainInfo`) -/

/-- One element of the `fermate` array of an `andamentoTreno` response, with
the fields `getTrainInfo` reads. `actualFermataType` is the upstream
"actual stop type" marker (sentinel value `1`). -/
structure Fermata where
  stazione : String
  id : String
  arrivoReale : Option Nat
  partenzaReale : Option Nat
  ritardoArrivo : Int
  ritardoPartenza : Int
  tipoFermata : String
  actualFermataType : Int
  arrivo_teorico : Option Nat
  partenza_teorica : Option Nat
  binarioProgrammatoPartenzaDescrizione : Option String
  binarioProgrammatoArrivoDescrizione : Option String
  binarioEffettivoPartenzaDescrizione : Option String
  binarioEffettivoArrivoDescrizione : Option String
deriving Repr, DecidableEq

/-- The fields of an `andamentoTreno` response body that `getTrainInfo`
reads. -/
structure Andamento where
  tipoTreno : String
  fermateSoppresse : List String
  oraUltimoRilevamento : Option Nat
  stazioneUltimoRilevamento : String
  idOrigine : String
  idDestinazione : String
  origine : String
  destinazione : String
  arrivato : Bool
  fermate : List Fermata
deriving Repr, DecidableEq

/-- The current-stop expression of `getTrainInfo`, in JS evaluation order:
`st.actualFermataType === 1 && (el.fermate[index + 1].actualFermataType === 0
|| !el.fermate[index + 1])`. When the left conjunct holds and
`el.fermate[index + 1]` is `undefined` (i.e. `st` is the last stop), reading
`.actualFermataType` off it throws a `TypeError` before the existence test
`!el.fermate[index + 1]` is ever reached; when the next element exists, that
existence test is reached only in the `false` case (`!object` is `false`). -/
def isCurrentStopJS (fermate : List Fermata) (index : Nat) (st : Fermata) :
    Except String Bool :=
  if st.actualFermataType = 1 then
    match fermate.get? (index + 1) with
    | none => .error "TypeError: cannot read actualFermataType of undefined"
    | some nxt => .ok (nxt.actualFermataType = 0 || false)
  else .ok false

/-- One normalized stop of the full train info. -/
structure FullStop where
  name : String
  stationId : String
  delayAtArrival : Option Int
  delayAtDeparture : Option Int
  isFirstStop : Bool
  isLastStop : Bool
  isCurrentStop : Bool
  expectedArrival : Option Nat
  actualArrival : Option Nat
  expectedDeparture : Option Nat
  actualDeparture : Option Nat
  expectedPlatform : Option String
  actualPlatform : Option String
deriving Repr, DecidableEq

/-- The per-stop transform of `getTrainInfo` (the body of the `el.fermate.map`),
which can throw through `isCurrentStopJS`. -/
def fullStopOfFermata (fermate : List Fermata) (index : Nat) (st : Fermata) :
    Except String FullStop := do
  let current ← isCurrentStopJS fermate index st
  return { name := st.stazione, stationId := st.id,
           delayAtArrival := if st.arrivoReale.isSome then some st.ritardoArrivo else none,
           delayAtDeparture := if st.partenzaReale.isSome then some st.ritardoPartenza else none,
           isFirstStop := st.tipoFermata = "P",
           isLastStop := st.tipoFermata = "A",
           isCurrentStop := current,
           expectedArrival := st.arrivo_teorico,
           actualArrival := st.arrivoReale,
           expectedDeparture := st.partenza_teorica,
           actualDeparture := st.partenzaReale,
           expectedPlatform :=
             if st.tipoFermata = "P" then st.binarioProgrammatoPartenzaDescrizione
             else st.binarioProgrammatoArrivoDescrizione,
           actualPlatform :=
             if st.tipoFermata = "P" then st.binarioEffettivoPartenzaDescrizione
             else st.binarioEffettivoArrivoDescrizione }

/-- The `stops` array of `getTrainInfo`: the indexed map over `el.fermate`. -/
def buildStops (fermate : List Fermata) : Except String (List FullStop) :=
  fermate.enum.mapM fun p => fullStopOfFermata fermate p.1 p.2

/-- The normalized full train info. -/
structure TrainInfo where
  trainType : String
  suppressedStops : List String
  lastDetection : Option Nat
  lastDetectionStationName : Option String
  stationIdA : String
  stationIdB : String
  nameA : String
  nameB : String
  hasArrived : Bool
  stops : List FullStop
deriving Repr, DecidableEq

/-- `getTrainInfo(trainNumber, stationIdA?, segmentN)`: resolve the station id
(possibly via autocomplete), fetch `andamentoTreno`, reformat on a 200 status;
the `catch` returns the raw error object (`Sum.inl`) in place of the train
info, including when the per-stop map throws. -/
def getTrainInfo (stationIdA : Option String) (segmentN : Nat)
    (auto : String ⊕ List AutoMatch)
    (transport : String → Transport Andamento) : String ⊕ TrainInfo :=
  match resolveStationId stationIdA segmentN auto with
  | .error err => .inl err
  | .ok stationId =>
    match transport stationId with
    | .error err => .inl err
    | .ok res =>
      if res.status = 200 then
        let el := res.data
        match buildStops el.fermate with
        | .error err => .inl err
        | .ok stops =>
          .inr { trainType := el.tipoTreno,
                 suppressedStops := el.fermateSoppresse,
                 lastDetection := el.oraUltimoRilevamento,
                 lastDetectionStationName :=
                   if el.stazioneUltimoRilevamento ≠ "--" then some el.stazioneUltimoRilevamento
                   else none,
                 stationIdA := el.idOrigine,
                 stationIdB := el.idDestinazione,
                 nameA := el.origine,
                 nameB := el.destinazione,
                 hasArrived := el.arrivato,
                 stops := stops }
      else .inl "code not 200"

/-! ### Properties of the template-literal keys -/

theorem digitChar_injOn : ∀ a < 10, ∀ b < 10, digitChar a = digitChar b → a = b := by decide

theorem digitChar_ne_dash : ∀ d < 10, digitChar d ≠ '-' := by decide

theorem natDigitsAux_eq_digits :
    ∀ fuel n, 0 < n → n ≤ fuel → natDigitsAux fuel n = (Nat.digits 10 n).map digitChar := by
  intro fuel
  induction fuel with
  | zero => intro n h0 hle; omega
  | succ fuel ih =>
    intro n h0 hle
    rw [Nat.digits_def' (by norm_num : 1 < 10) h0]
    by_cases hlt : n < 10
    · have hm : n % 10 = n := Nat.mod_eq_of_lt hlt
      have hd : n / 10 = 0 := Nat.div_eq_of_lt hlt
      simp [natDigitsAux, hlt, hm, hd]
    · have hdiv0 : 0 < n / 10 := Nat.div_pos (Nat.le_of_not_lt hlt) (by norm_num)
      have hdivle : n / 10 ≤ fuel := by
        have := Nat.div_lt_self h0 (by norm_num : 1 < 10)
        omega
      simp [natDigitsAux, hlt, ih (n / 10) hdiv0 hdivle]

theorem map_digitChar_inj :
    ∀ l₁ l₂ : List Nat, (∀ d ∈ l₁, d < 10) → (∀ d ∈ l₂, d < 10) →
      l₁.map digitChar = l₂.map digitChar → l₁ = l₂ := by
  intro l₁
  induction l₁ with
  | nil => intro l₂ _ _ h; cases l₂ <;> simp_all
  | cons a t ih =>
    intro l₂ h₁ h₂ h
    cases l₂ with
    | nil => simp_all
    | cons b t₂ =>
      simp only [List.map_cons, List.cons.injEq] at h
      have ha : a = b :=
        digitChar_injOn a (h₁ a (List.mem_cons_self a t)) b (h₂ b (List.mem_cons_self b t₂)) h.1
      have ht : t = t₂ :=
        ih t₂ (fun d hd => h₁ d (List.mem_cons_of_mem a hd))
          (fun d hd => h₂ d (List.mem_cons_of_mem b hd)) h.2
      rw [ha, ht]

theorem natDigitsAux_pos_ne_single_zero (n : Nat) (hn : 0 < n)
    (h : natDigitsAux (n + 1) n = [digitChar 0]) : False := by
  rw [natDigitsAux_eq_digits (n + 1) n hn (Nat.le_succ n)] at h
  rcases hds : Nat.digits 10 n with _ | ⟨d, ds⟩
  · rw [hds] at h; simp at h
  · rw [hds] at h
    rcases ds with _ | ⟨d₂, ds₂⟩
    · simp only [List.map_cons, List.map_nil, List.cons.injEq] at h
      have hd10 : d < 10 :=
        Nat.digits_lt_base (by norm_num) (hds ▸ List.mem_cons_self d [])
      have hd0 : d = 0 := digitChar_injOn d hd10 0 (by norm_num) h.1
      have hofd : n = Nat.ofDigits 10 (Nat.digits 10 n) := (Nat.ofDigits_digits 10 n).symm
      rw [hds, hd0] at hofd
      simp [Nat.ofDigits_cons, Nat.ofDigits_nil] at hofd
      omega
    · simp at h

theorem jsNatReprData_inj (m n : Nat) (h : (jsNatRepr m).data = (jsNatRepr n).data) : m = n := by
  have h' : natDigitsAux (m + 1) m = natDigitsAux (n + 1) n := by
    have := congrArg List.reverse h
    simpa [jsNatRepr, List.asString] using this
  have hzero : natDigitsAux 1 0 = [digitChar 0] := rfl
  rcases Nat.eq_zero_or_pos m with hm | hm <;> rcases Nat.eq_zero_or_pos n with hn | hn
  · omega
  · exfalso
    rw [hm] at h'
    exact natDigitsAux_pos_ne_single_zero n hn (h'.symm.trans hzero)
  · exfalso
    rw [hn] at h'
    exact natDigitsAux_pos_ne_single_zero m hm (h'.trans hzero)
  · rw [natDigitsAux_eq_digits (m + 1) m hm (Nat.le_succ m),
      natDigitsAux_eq_digits (n + 1) n hn (Nat.le_succ n)] at h'
    have hdig : Nat.digits 10 m = Nat.digits 10 n :=
      map_digitChar_inj _ _ (fun d hd => Nat.digits_lt_base (by norm_num) hd)
        (fun d hd => Nat.digits_lt_base (by norm_num) hd) h'
    calc m = Nat.ofDigits 10 (Nat.digits 10 m) := (Nat.ofDigits_digits 10 m).symm
    _ = Nat.ofDigits 10 (Nat.digits 10 n) := by rw [hdig]
    _ = n := Nat.ofDigits_digits 10 n

theorem mem_natDigitsAux_lt :
    ∀ fuel n c, c ∈ natDigitsAux fuel n → ∃ d, d < 10 ∧ c = digitChar d := by
  intro fuel
  induction fuel with
  | zero => intro n c hc; simp [natDigitsAux] at hc
  | succ fuel ih =>
    intro n c hc
    by_cases hlt : n < 10
    · simp only [natDigitsAux, if_pos hlt, List.mem_singleton] at hc
      exact ⟨n, hlt, hc⟩
    · simp only [natDigitsAux, if_neg hlt, List.mem_cons] at hc
      rcases hc with hc | hc
      · exact ⟨n % 10, Nat.mod_lt n (by norm_num), hc⟩
      · exact ih (n / 10) c hc

theorem dash_not_mem_jsNatRepr (n : Nat) : '-' ∉ (jsNatRepr n).data := by
  intro hmem
  have hmem' : '-' ∈ natDigitsAux (n + 1) n := by
    simpa [jsNatRepr, List.asString] using hmem
  obtain ⟨d, hd, hc⟩ := mem_natDigitsAux_lt (n + 1) n '-' hmem'
  exact digitChar_ne_dash d hd hc.symm

theorem splitDash :
    ∀ (a b a' b' : List Char), '-' ∉ a → '-' ∉ a' →
      a ++ '-' :: b = a' ++ '-' :: b' → a = a' ∧ b = b' := by
  intro a
  induction a with
  | nil =>
    intro b a' b' _ ha' h
    cases a' with
    | nil => simpa using h
    | cons c t =>
      simp only [List.nil_append, List.cons_append, List.cons.injEq] at h
      exact absurd (h.1 ▸ List.mem_cons_self c t) ha'
  | cons c t ih =>
    intro b a' b' ha ha' h
    cases a' with
    | nil =>
      simp only [List.cons_append, List.nil_append, List.cons.injEq] at h
      exact absurd (h.1 ▸ List.mem_cons_self c t) ha
    | cons c' t' =>
      simp only [List.cons_append, List.cons.injEq] at h
      obtain ⟨h1, h2⟩ :=
        ih b t' b' (fun hm => ha (List.mem_cons_of_mem c hm))
          (fun hm => ha' (List.mem_cons_of_mem c' hm)) h.2
      exact ⟨by rw [h.1, h1], h2⟩

theorem jsKey2_inj (x y x' y' : Nat) (h : jsKey2 x y = jsKey2 x' y') :
    x = x' ∧ y = y' := by
  have hdata : (jsNatRepr x).data ++ '-' :: (jsNatRepr y).data =
      (jsNatRepr x').data ++ '-' :: (jsNatRepr y').data := by
    have := congrArg String.data h
    simpa [jsKey2, String.data_append, List.append_assoc] using this
  obtain ⟨h1, h2⟩ :=
    splitDash _ _ _ _ (dash_not_mem_jsNatRepr x) (dash_not_mem_jsNatRepr x') hdata
  exact ⟨jsNatReprData_inj x x' h1, jsNatReprData_inj y y' h2⟩

/-! ### Properties of the JS `Map` deduplication idiom -/

section JsMap

variable {α : Type}

theorem jsMapInsert_map_fst (m : List (String × α)) (k : String) (v : α) :
    (jsMapInsert m k v).map (·.1) =
      if m.any (fun p => p.1 == k) then m.map (·.1) else m.map (·.1) ++ [k] := by
  unfold jsMapInsert
  by_cases h : m.any (fun p => p.1 == k)
  · rw [if_pos h, if_pos h, List.map_map]
    apply List.map_congr_left
    intro p _
    by_cases hpk : p.1 = k
    · simp [hpk]
    · simp [hpk]
  · rw [if_neg h, if_neg h]
    simp

theorem not_mem_keys_of_any_eq_false {m : List (String × α)} {k : String}
    (h : ¬m.any (fun p => p.1 == k)) : k ∉ m.map (·.1) := by
  intro hk
  obtain ⟨p, hp, hpk⟩ := List.mem_map.mp hk
  exact h (List.any_eq_true.mpr ⟨p, hp, by simp [hpk]⟩)

theorem nodup_keys_jsMapInsert {m : List (String × α)} {k : String} {v : α}
    (h : (m.map (·.1)).Nodup) : ((jsMapInsert m k v).map (·.1)).Nodup := by
  rw [jsMapInsert_map_fst]
  by_cases hany : m.any (fun p => p.1 == k)
  · rwa [if_pos hany]
  · rw [if_neg hany, List.nodup_append]
    exact ⟨h, List.nodup_singleton k, by
      intro a ha hb
      rw [List.mem_singleton] at hb
      exact not_mem_keys_of_any_eq_false hany (hb ▸ ha)⟩

theorem find?_map_replace (m : List (String × α)) (k k' : String) (v : α) (hk : k' ≠ k) :
    ((m.map fun p => if p.1 == k then (k, v) else p).find? (fun p => p.1 == k')) =
      m.find? (fun p => p.1 == k') := by
  induction m with
  | nil => rfl
  | cons p t ih =>
    rw [List.map_cons]
    by_cases hpk : p.1 = k
    · rw [if_pos (by simpa using hpk),
        List.find?_cons_of_neg _ (by simp; exact fun h => hk h.symm),
        List.find?_cons_of_neg _ (by simp [hpk]; exact fun h => hk h.symm)]
      exact ih
    · rw [if_neg (by simpa using hpk)]
      by_cases hpk' : p.1 = k'
      · rw [List.find?_cons_of_pos _ (by simpa using hpk'),
          List.find?_cons_of_pos _ (by simpa using hpk')]
      · rw [List.find?_cons_of_neg _ (by simpa using hpk'),
          List.find?_cons_of_neg _ (by simpa using hpk')]
        exact ih

theorem find?_replace_self (m : List (String × α)) (k : String) (v : α)
    (hany : m.any (fun p => p.1 == k)) :
    ((m.map fun p => if p.1 == k then (k, v) else p).find? (fun p => p.1 == k)) =
      some (k, v) := by
  induction m with
  | nil => simp at hany
  | cons p t ih =>
    rw [List.map_cons]
    by_cases hpk : p.1 = k
    · rw [if_pos (by simpa using hpk), List.find?_cons_of_pos _ (by simp)]
    · have hany' : t.any (fun p => p.1 == k) := by
        rcases List.any_eq_true.mp hany with ⟨q, hq, hqk⟩
        rcases List.mem_cons.mp hq with rfl | hq'
        · exact absurd (by simpa using hqk) hpk
        · exact List.any_eq_true.mpr ⟨q, hq', hqk⟩
      rw [if_neg (by simpa using hpk), List.find?_cons_of_neg _ (by simpa using hpk)]
      exact ih hany'

theorem find?_jsMapInsert_self (m : List (String × α)) (k : String) (v : α) :
    (jsMapInsert m k v).find? (fun p => p.1 == k) = some (k, v) := by
  unfold jsMapInsert
  by_cases hany : m.any (fun p => p.1 == k)
  · rw [if_pos hany]
    exact find?_replace_self m k v hany
  · rw [if_neg hany, List.find?_append]
    have hnone : m.find? (fun p => p.1 == k) = none := by
      rw [List.find?_eq_none]
      intro p hp hpk
      exact hany (List.any_eq_true.mpr ⟨p, hp, hpk⟩)
    simp [hnone]

theorem find?_jsMapInsert_ne (m : List (String × α)) (k k' : String) (v : α) (hk : k' ≠ k) :
    (jsMapInsert m k v).find? (fun p => p.1 == k') = m.find? (fun p => p.1 == k') := by
  unfold jsMapInsert
  by_cases hany : m.any (fun p => p.1 == k)
  · rw [if_pos hany]
    exact find?_map_replace m k k' v hk
  · rw [if_neg hany, List.find?_append]
    have h1 : [(k, v)].find? (fun p => p.1 == k') = none := by
      simp [BEq.beq]
      exact fun hkk => hk hkk.symm
    simp [h1]

theorem find?_foldl_jsMapInsert :
    ∀ (l m : List (String × α)) (k : String),
      ((l.foldl (fun m p => jsMapInsert m p.1 p.2) m).find? (fun p => p.1 == k)) =
        (l.reverse.find? (fun p => p.1 == k)).or (m.find? (fun p => p.1 == k)) := by
  intro l
  induction l with
  | nil => intro m k; simp
  | cons p t ih =>
    intro m k
    have hstep : (jsMapInsert m p.1 p.2).find? (fun q => q.1 == k) =
        ([p].find? (fun q => q.1 == k)).or (m.find? (fun q => q.1 == k)) := by
      by_cases hpk : p.1 = k
      · rw [← hpk, find?_jsMapInsert_self]
        simp [List.find?_cons]
      · rw [find?_jsMapInsert_ne m p.1 k p.2 (fun h => hpk h.symm)]
        simp [List.find?_cons, show (p.1 == k) = false by simp [hpk]]
    calc ((p :: t).foldl (fun m q => jsMapInsert m q.1 q.2) m).find? (fun q => q.1 == k)
        = (t.foldl (fun m q => jsMapInsert m q.1 q.2) (jsMapInsert m p.1 p.2)).find?
            (fun q => q.1 == k) := by rw [List.foldl_cons]
    _ = (t.reverse.find? (fun q => q.1 == k)).or
          ((jsMapInsert m p.1 p.2).find? (fun q => q.1 == k)) := ih _ k
    _ = (t.reverse.find? (fun q => q.1 == k)).or
          (([p].find? (fun q => q.1 == k)).or (m.find? (fun q => q.1 == k))) := by rw [hstep]
    _ = ((p :: t).reverse.find? (fun q => q.1 == k)).or (m.find? (fun q => q.1 == k)) := by
          rw [List.reverse_cons, List.find?_append, Option.or_assoc]

theorem find?_jsMapOfPairs (l : List (String × α)) (k : String) :
    (jsMapOfPairs l).find? (fun p => p.1 == k) = l.reverse.find? (fun p => p.1 == k) := by
  rw [jsMapOfPairs, find?_foldl_jsMapInsert]
  simp

theorem nodup_keys_jsMapOfPairs (l : List (String × α)) :
    ((jsMapOfPairs l).map (·.1)).Nodup := by
  rw [jsMapOfPairs]
  have : ∀ (l m : List (String × α)), (m.map (·.1)).Nodup →
      (((l.foldl (fun m p => jsMapInsert m p.1 p.2) m)).map (·.1)).Nodup := by
    intro l
    induction l with
    | nil => intro m hm; simpa using hm
    | cons p t ih =>
      intro m hm
      rw [List.foldl_cons]
      exact ih _ (nodup_keys_jsMapInsert hm)
  exact this l [] (by simp)

theorem entries_key_eq {f : α → String} :
    ∀ (l m : List (String × α)), (∀ p ∈ m, p.1 = f p.2) → (∀ p ∈ l, p.1 = f p.2) →
      ∀ p ∈ l.foldl (fun m p => jsMapInsert m p.1 p.2) m, p.1 = f p.2 := by
  intro l
  induction l with
  | nil => intro m hm _ p hp; exact hm p hp
  | cons q t ih =>
    intro m hm hl p hp
    rw [List.foldl_cons] at hp
    refine ih _ ?_ (fun r hr => hl r (List.mem_cons_of_mem q hr)) p hp
    intro r hr
    unfold jsMapInsert at hr
    by_cases hany : m.any (fun p => p.1 == q.1)
    · rw [if_pos hany] at hr
      obtain ⟨s, hs, hsr⟩ := List.mem_map.mp hr
      by_cases hsk : s.1 = q.1
      · rw [← hsr, if_pos (by simp [hsk])]
        exact hl q (List.mem_cons_self q t)
      · rw [← hsr, if_neg (by simp [hsk])]
        exact hm s hs
    · rw [if_neg hany] at hr
      rcases List.mem_append.mp hr with hr' | hr'
      · exact hm r hr'
      · rw [List.mem_singleton] at hr'
        rw [hr']
        exact hl q (List.mem_cons_self q t)

theorem entries_key_eq_jsMapOfPairs {f : α → String} (l : List (String × α))
    (hl : ∀ p ∈ l, p.1 = f p.2) :
    ∀ p ∈ jsMapOfPairs l, p.1 = f p.2 :=
  entries_key_eq l [] (by simp) hl

theorem filter_length_le_one_of_nodup_keys :
    ∀ (m : List (String × α)) (k : String), ((m.map (·.1)).Nodup) →
      ((m.filter (fun p => p.1 == k)).length) ≤ 1 := by
  intro m
  induction m with
  | nil => intro k _; simp
  | cons p t ih =>
    intro k hnd
    simp only [List.map_cons, List.nodup_cons] at hnd
    by_cases hpk : p.1 = k
    · have hnil : t.filter (fun q => q.1 == k) = [] := by
        rw [List.filter_eq_nil_iff]
        intro q hq hqk
        exact hnd.1 (List.mem_map.mpr ⟨q, hq, by simpa [hpk] using hqk⟩)
      simp [List.filter_cons, hpk, hnil]
    · simp only [List.filter_cons, show (p.1 == k) = false by simp [hpk]]
      exact ih k hnd.2

theorem mem_keys_jsMapOfPairs (l : List (String × α)) (k : String) :
    k ∈ (jsMapOfPairs l).map (·.1) ↔ k ∈ l.map (·.1) := by
  constructor
  · intro hk
    obtain ⟨p, hp, hpk⟩ := List.mem_map.mp hk
    have hfind : ((jsMapOfPairs l).find? (fun p => p.1 == k)).isSome :=
      List.find?_isSome.mpr ⟨p, hp, by simp [hpk]⟩
    rw [find?_jsMapOfPairs] at hfind
    obtain ⟨q, hq, hqk⟩ := List.find?_isSome.mp hfind
    exact List.mem_map.mpr ⟨q, List.mem_reverse.mp hq, by simpa using hqk⟩
  · intro hk
    obtain ⟨p, hp, hpk⟩ := List.mem_map.mp hk
    have hfind : ((jsMapOfPairs l).find? (fun p => p.1 == k)).isSome := by
      rw [find?_jsMapOfPairs]
      exact List.find?_isSome.mpr ⟨p, List.mem_reverse.mpr hp, by simp [hpk]⟩
    obtain ⟨q, hq, hqk⟩ := List.find?_isSome.mp hfind
    exact List.mem_map.mpr ⟨q, hq, by simpa using hqk⟩

theorem mem_of_find?_jsMapOfPairs {l : List (String × α)} {k : String} {p : String × α}
    (h : (jsMapOfPairs l).find? (fun q => q.1 == k) = some p) : p ∈ jsMapOfPairs l :=
  List.mem_of_find?_eq_some h

end JsMap

/-! ### The common dedup-by-derived-key shape

Both `uniqueSegments` and `dedupTrains` are instances of
`Array.from(new Map(l.map(x => [keyOf(x), x])).values())`. -/

/-- `Array.from(new Map(l.map(x => [keyOf(x), x])).values())`. -/
def keyedDedup {α : Type} (keyOf : α → String) (l : List α) : List α :=
  jsMapValues (jsMapOfPairs (l.map fun x => (keyOf x, x)))

theorem uniqueSegments_eq_keyedDedup (l : List RawSegment) :
    uniqueSegments l = keyedDedup (fun el => jsKey2 el.trattaAB el.trattaBA) l := rfl

theorem dedupTrains_eq_keyedDedup (l : List Train) :
    dedupTrains l = keyedDedup (fun t => jsKey2 t.trainNumber t.regionId) l := rfl

section KeyedDedup

variable {α : Type} (keyOf : α → String)

theorem keyedDedup_entry_key (l : List α) :
    ∀ p ∈ jsMapOfPairs (l.map fun x => (keyOf x, x)), p.1 = keyOf p.2 :=
  entries_key_eq_jsMapOfPairs _ (by
    intro p hp
    obtain ⟨x, _, hx⟩ := List.mem_map.mp hp
    rw [← hx])

theorem keyedDedup_represents (l : List α) (x : α) (hx : x ∈ l) :
    ∃ y ∈ keyedDedup keyOf l, keyOf y = keyOf x := by
  have hk : keyOf x ∈ ((l.map fun z => (keyOf z, z)).map (·.1)) :=
    List.mem_map.mpr ⟨(keyOf x, x), List.mem_map.mpr ⟨x, hx, rfl⟩, rfl⟩
  have hk' := (mem_keys_jsMapOfPairs _ _).mpr hk
  obtain ⟨p, hp, hpk⟩ := List.mem_map.mp hk'
  refine ⟨p.2, List.mem_map.mpr ⟨p, hp, rfl⟩, ?_⟩
  rw [← keyedDedup_entry_key keyOf l p hp, hpk]

theorem keyedDedup_pairwise (l : List α) :
    (keyedDedup keyOf l).Pairwise (fun a b => keyOf a ≠ keyOf b) := by
  have hnd := nodup_keys_jsMapOfPairs (l.map fun x => (keyOf x, x))
  rw [List.Nodup, List.pairwise_map] at hnd
  rw [keyedDedup, jsMapValues, List.pairwise_map]
  refine hnd.imp_of_mem ?_
  intro p q hp hq hne hk
  rw [keyedDedup_entry_key keyOf l p hp, keyedDedup_entry_key keyOf l q hq] at hne
  exact hne hk

theorem keyedDedup_last_wins (l : List α) (k : String) (y : α)
    (h : l.reverse.find? (fun z => keyOf z == k) = some y) : y ∈ keyedDedup keyOf l := by
  have hfind : (jsMapOfPairs (l.map fun x => (keyOf x, x))).find? (fun p => p.1 == k) =
      some (keyOf y, y) := by
    rw [find?_jsMapOfPairs, ← List.map_reverse, List.find?_map]
    have hcomp : ((fun p : String × α => p.1 == k) ∘ fun x => (keyOf x, x)) =
        fun z => keyOf z == k := rfl
    rw [hcomp, h]
    rfl
  exact List.mem_map.mpr ⟨(keyOf y, y), List.mem_of_find?_eq_some hfind, rfl⟩

theorem keyedDedup_key_count (l : List α) (x : α) (hx : x ∈ l) :
    ((keyedDedup keyOf l).filter (fun y => keyOf y == keyOf x)).length = 1 := by
  have hfil : (keyedDedup keyOf l).filter (fun y => keyOf y == keyOf x) =
      ((jsMapOfPairs (l.map fun z => (keyOf z, z))).filter
        (fun p => p.1 == keyOf x)).map (·.2) := by
    rw [keyedDedup, jsMapValues, List.filter_map]
    congr 1
    apply List.filter_congr
    intro p hp
    simp only [Function.comp]
    rw [keyedDedup_entry_key keyOf l p hp]
  rw [hfil, List.length_map]
  have hle := filter_length_le_one_of_nodup_keys
    (jsMapOfPairs (l.map fun z => (keyOf z, z))) (keyOf x)
    (nodup_keys_jsMapOfPairs _)
  obtain ⟨y, hy, hyk⟩ := keyedDedup_represents keyOf l x hx
  obtain ⟨p, hp, hpy⟩ := List.mem_map.mp hy
  have hpmem : p ∈ (jsMapOfPairs (l.map fun z => (keyOf z, z))).filter
      (fun p => p.1 == keyOf x) := by
    rw [List.mem_filter]
    refine ⟨hp, ?_⟩
    rw [keyedDedup_entry_key keyOf l p hp, hpy]
    simpa using hyk
  have hge := List.length_pos_of_mem hpmem
  omega

end KeyedDedup

/-! ### Concrete records used in counterexamples and witnesses -/

/-- A plain raw train record to build concrete test inputs from. -/
def rawTrainBase : RawTrain :=
  { arrivato := false, nonPartito := false, circolante := true, inStazione := false,
    dataPartenzaTreno := 1762124400000, tratta := 5, regione := 1, categoria := "REG",
    compNumeroTreno := "REG 100", numeroTreno := 100, haCambiNumero := false,
    origine := "ROMA TERMINI", codOrigine := "S08409", destinazione := "MILANO CENTRALE",
    codDestinazione := "S01700", compDurata := "01:00", ritardo := 0, ultimoRilev := 10 }

/-- A plain fermata with the "actual stop type" marker equal to `0`. -/
def fermataBase : Fermata :=
  { stazione := "ROMA TERMINI", id := "S08409", arrivoReale := some 5, partenzaReale := some 7,
    ritardoArrivo := 0, ritardoPartenza := 0, tipoFermata := "P", actualFermataType := 0,
    arrivo_teorico := some 5, partenza_teorica := some 7,
    binarioProgrammatoPartenzaDescrizione := some "1",
    binarioProgrammatoArrivoDescrizione := some "2",
    binarioEffettivoPartenzaDescrizione := some "1",
    binarioEffettivoArrivoDescrizione := some "2" }

/-- A fermata carrying the sentinel marker `1`. -/
def fermataSentinel : Fermata := { fermataBase with actualFermataType := 1 }

/-- An `andamentoTreno` body whose LAST stop carries the sentinel marker. -/
def andamentoLastSentinel : Andamento :=
  { tipoTreno := "PG", fermateSoppresse := [], oraUltimoRilevamento := some 3,
    stazioneUltimoRilevamento := "ROMA TERMINI", idOrigine := "S08409",
    idDestinazione := "S01700", origine := "ROMA TERMINI", destinazione := "MILANO CENTRALE",
    arrivato := false, fermate := [fermataBase, fermataSentinel] }

/-! ### C1 — the aggregator's completion filter -/

/-- C1 counterexample: the claim says a record with `arrived = true` and
`departed = true` (that is, `arrivato = true`, `nonPartito = false`) is
excluded by the filter, and that the filter keeps a record exactly when
`!arrived || !departed`. On that concrete record the code's filter
`!el.arrivato || !el.nonPartito` KEEPS it, so the claimed biconditional is
false. -/
theorem trainFilter_claim_counterexample :
    keepTrain { rawTrainBase with arrivato := true, nonPartito := false } = true ∧
    (normalizeTrain { rawTrainBase with arrivato := true, nonPartito := false }).arrived = true ∧
    (normalizeTrain { rawTrainBase with arrivato := true, nonPartito := false }).departed = true ∧
    ((!(normalizeTrain { rawTrainBase with arrivato := true, nonPartito := false }).arrived) ||
     (!(normalizeTrain { rawTrainBase with arrivato := true, nonPartito := false }).departed))
      = false := by
  decide

/-- C1 (amended): the filter keeps a raw record if and only if it has NOT
arrived OR it HAS departed (`!el.arrivato || !el.nonPartito`, where the
normalized `departed` is `!el.nonPartito`). Concretely: arrived-and-departed
is kept, neither-arrived-nor-departed is kept, and arrived-but-not-departed
is the only excluded combination. -/
theorem trainFilter_keeps_iff :
    (∀ el : RawTrain,
      keepTrain el = (!(normalizeTrain el).arrived || (normalizeTrain el).departed)) ∧
    keepTrain { rawTrainBase with arrivato := true, nonPartito := false } = true ∧
    keepTrain { rawTrainBase with arrivato := false, nonPartito := true } = true ∧
    keepTrain { rawTrainBase with arrivato := true, nonPartito := true } = false := by
  refine ⟨fun el => ?_, by decide, by decide, by decide⟩
  simp [keepTrain, normalizeTrain]

/-! ### C2 — current-stop inference and the last-stop fault -/

/-- C2: the current-stop expression matches the claim as long as a next stop
exists (sentinel marker here, marker `0` on the next stop ⟹ `true`), but for
the LAST stop carrying the sentinel marker the code dereferences the missing
next element and faults instead of yielding `true`: the existence guard
`!el.fermate[index + 1]` sits after the dereference and can never fire. The
whole `getTrainInfo` call then returns the caught error object. -/
theorem currentStop_lastStop_faults :
    isCurrentStopJS [fermataBase, fermataSentinel, fermataBase] 1 fermataSentinel =
      Except.ok true ∧
    isCurrentStopJS [fermataSentinel, fermataBase] 0 fermataSentinel = Except.ok true ∧
    isCurrentStopJS [fermataSentinel] 0 fermataSentinel =
      Except.error "TypeError: cannot read actualFermataType of undefined" ∧
    isCurrentStopJS [fermataBase, fermataSentinel] 1 fermataSentinel =
      Except.error "TypeError: cannot read actualFermataType of undefined" ∧
    (getTrainInfo (some "S08409") 0 (Sum.inr [])
      (fun _ => Except.ok ⟨200, andamentoLastSentinel⟩)).isLeft = true := by
  decide

/-! ### C6 — train category inference -/

/-- The first space-delimited token of the trimmed string (the claim's
"first whitespace-delimited token", with JS `split(' ')` delimiting on the
space character). -/
def firstSpaceToken (s : String) : String :=
  (jsSplit (jsTrim s) " ").headD ""

/-- C6: the normalized `trainCategory` is the upstream `categoria` when that
field is non-empty, and otherwise the first space-delimited token of the
trimmed `compNumeroTreno`; in particular `" FR 9516"` with an empty category
yields `"FR"`. -/
theorem trainCategory_spec :
    (∀ el : RawTrain, el.categoria ≠ "" → (normalizeTrain el).trainCategory = el.categoria) ∧
    (∀ el : RawTrain, el.categoria = "" →
      (normalizeTrain el).trainCategory = firstSpaceToken el.compNumeroTreno) ∧
    (normalizeTrain
      { rawTrainBase with categoria := "", compNumeroTreno := " FR 9516" }).trainCategory
      = "FR" := by
  refine ⟨fun el h => ?_, fun el h => ?_, by decide⟩
  · simp [normalizeTrain, h]
  · simp [normalizeTrain, h, firstSpaceToken]

/-- C6 witness: the two implications applied at concrete records. -/
theorem trainCategory_spec_witness :
    (normalizeTrain { rawTrainBase with categoria := "IC" }).trainCategory = "IC" ∧
    (normalizeTrain
      { rawTrainBase with categoria := "", compNumeroTreno := " FR 9516" }).trainCategory
      = firstSpaceToken " FR 9516" :=
  ⟨trainCategory_spec.1 _ (by decide), trainCategory_spec.2.1 _ rfl⟩

/-! ### C7 — travel-duration parsing -/

/-- C7: for a `compDurata` of the form `"HH:MM"` (it splits on `':'` into two
pieces that `Number` parses), the normalized `travelDuration` is
`hours * 60 + minutes`. -/
theorem travelDuration_spec (el : RawTrain) (hs ms : String) (h m : Nat)
    (h1 : jsSplit el.compDurata ":" = [hs, ms])
    (h2 : jsNumber hs = some h) (h3 : jsNumber ms = some m) :
    (normalizeTrain el).travelDuration = some (h * 60 + m) := by
  show durataMin el.compDurata = _
  simp only [durataMin, h1]
  simp [jsNumberU, h2, h3]

/-- C7 witness: `"02:15"` parses to `135` minutes. -/
theorem travelDuration_spec_witness :
    (normalizeTrain { rawTrainBase with compDurata := "02:15" }).travelDuration = some 135 :=
  travelDuration_spec _ "02" "15" 2 15 (by decide) (by decide) (by decide)

/-! ### C8 — autocomplete parsing -/

/-- C8: `getTrainAutocomplete` splits the 200-response text on newlines,
drops empty lines and parses each remaining line; a line splitting on `'|'`
into fields `t0, t1, ...` yields the match whose `trainNumber` is the first
hyphen-delimited component of `t1`, whose `stationA` is the token after the
first `" - "` separator of `t0` and whose `stationIdA` is the second
hyphen-delimited component of `t1`. -/
theorem autocomplete_parsing (data : String) (ms : List AutoMatch)
    (hp : ((jsSplit data "\n").filter (· ≠ "")).mapM parseAutoLine = Except.ok ms) :
    getTrainAutocomplete (Except.ok ⟨200, data⟩) = Sum.inr ms ∧
    ∀ (el t0 t1 : String) (rest : List String), jsSplit el "|" = t0 :: t1 :: rest →
      parseAutoLine el = Except.ok
        { trainNumber := (jsSplit t1 "-").headD "",
          stationA := (jsSplit t0 " - ").get? 1,
          stationIdA := (jsSplit t1 "-").get? 1 } := by
  constructor
  · show (match ((jsSplit data "\n").filter (· ≠ "")).mapM parseAutoLine with
      | Except.error err => (Sum.inl err : String ⊕ List AutoMatch)
      | Except.ok result => Sum.inr result) = Sum.inr ms
    rw [hp]
  · intro el t0 t1 rest hsplit
    simp [parseAutoLine, hsplit]

/-- C8 witness: the documented line
`"3914 - ANCONA - 03/11/25|3914-S07113-1762124400000"` yields train number
`"3914"`, station `"ANCONA"`, station id `"S07113"`. -/
theorem autocomplete_parsing_witness :
    getTrainAutocomplete
      (Except.ok ⟨200, "3914 - ANCONA - 03/11/25|3914-S07113-1762124400000"⟩) =
      Sum.inr [{ trainNumber := "3914", stationA := some "ANCONA",
                 stationIdA := some "S07113" }] :=
  (autocomplete_parsing "3914 - ANCONA - 03/11/25|3914-S07113-1762124400000"
    [{ trainNumber := "3914", stationA := some "ANCONA", stationIdA := some "S07113" }]
    (by decide)).1

/-! ### C5 — per-function failure behaviour -/

/-- A failed exchange: the request rejected, or the response status is
not 200. -/
def httpFailed {α : Type} : Transport α → Bool
  | .error _ => true
  | .ok res => res.status != 200

/-- A concrete busy raw segment used in witnesses. -/
def rawSegA : RawSegment :=
  { nodoA := "S08409", nodoB := "S01700", trattaAB := 100, trattaBA := 101,
    latitudineA := 41, longitudineA := 12, latitudineB := 45, longitudineB := 9,
    occupata := true }

/-- Unfolding equation for `getAllTrains`. -/
theorem getAllTrains_eq (segT : Transport (List RawSegment))
    (detail : Nat → Nat → Except String (List SegmentDetail)) :
    getAllTrains segT detail =
      match (getAllSegments true false segT).mapM
          (fun el => detail el.segmentIdAB el.segmentIdBA) with
      | .error err => .inl err
      | .ok responses =>
        .inr (dedupTrains
          ((((responses.map (fun el => (el.map (·.treni)).flatten)).flatten).filter
            keepTrain).map normalizeTrain)) := rfl

/-- C5: on a transport failure or a non-200 response, `getAllStations`,
`getAllSegments` and `getTrainStopsInfo` return the empty sequence (never
raising), `getStationRegionId` returns the sentinel `-1`, while
`getTrainAutocomplete`, `getTrainInfo` and `getAllTrains` return the raw
error object (`Sum.inl`) in place of the declared success value (for
`getAllTrains` the relevant failure is a failing per-segment detail
request). -/
theorem errorHandling_spec
    (tS : Transport (List RawStation)) (hS : httpFailed tS = true)
    (unique busy : Bool) (tSeg : Transport (List RawSegment)) (hSeg : httpFailed tSeg = true)
    (sid : String) (n : Nat) (auto : String ⊕ List AutoMatch)
    (tStop : String → Transport (List CanvasStop)) (hStop : httpFailed (tStop sid) = true)
    (tReg : Transport Int) (hReg : httpFailed tReg = true)
    (tAuto : Transport String) (hAuto : httpFailed tAuto = true)
    (tInfo : String → Transport Andamento) (hInfo : httpFailed (tInfo sid) = true)
    (segOkT : Transport (List RawSegment))
    (detail : Nat → Nat → Except String (List SegmentDetail)) (e : String)
    (hdet : ∀ a b, detail a b = Except.error e)
    (hne : getAllSegments true false segOkT ≠ []) :
    getAllStations tS = [] ∧
    getAllSegments unique busy tSeg = [] ∧
    getTrainStopsInfo (some sid) n auto tStop = [] ∧
    getStationRegionId tReg = -1 ∧
    (getTrainAutocomplete tAuto).isLeft = true ∧
    (getTrainInfo (some sid) n auto tInfo).isLeft = true ∧
    getAllTrains segOkT detail = Sum.inl e := by
  refine ⟨?_, ?_, ?_, ?_, ?_, ?_, ?_⟩
  · cases tS with
    | error err => rfl
    | ok res =>
      have hs' : res.status ≠ 200 := by simpa [httpFailed] using hS
      simp [getAllStations, hs']
  · cases tSeg with
    | error err => rfl
    | ok res =>
      have hs' : res.status ≠ 200 := by simpa [httpFailed] using hSeg
      simp [getAllSegments, hs']
  · cases htr : tStop sid with
    | error err => simp [getTrainStopsInfo, resolveStationId, htr]
    | ok res =>
      rw [htr] at hStop
      have hs' : res.status ≠ 200 := by simpa [httpFailed] using hStop
      simp [getTrainStopsInfo, resolveStationId, htr, hs']
  · cases tReg with
    | error err => rfl
    | ok res =>
      have hs' : res.status ≠ 200 := by simpa [httpFailed] using hReg
      simp [getStationRegionId, hs']
  · cases tAuto with
    | error err => rfl
    | ok res =>
      have hs' : res.status ≠ 200 := by simpa [httpFailed] using hAuto
      simp [getTrainAutocomplete, hs']
  · cases htr : tInfo sid with
    | error err => simp [getTrainInfo, resolveStationId, htr]
    | ok res =>
      rw [htr] at hInfo
      have hs' : res.status ≠ 200 := by simpa [httpFailed] using hInfo
      simp [getTrainInfo, resolveStationId, htr, hs']
  · rcases hseg : getAllSegments true false segOkT with _ | ⟨s, rest⟩
    · exact absurd hseg hne
    · have hmap : (s :: rest).mapM (fun el => detail el.segmentIdAB el.segmentIdBA) =
          Except.error e := by
        simp only [hdet]
        rfl
      rw [getAllTrains_eq, hseg, hmap]

/-- C5 witness: the instantiated conclusions at concrete failed exchanges
(one transport rejection, one 500 and one 503 response, and a failing
per-segment detail request). -/
theorem errorHandling_spec_witness :
    getAllStations (Except.error "ECONNREFUSED") = [] ∧
    getAllSegments true true (Except.ok ⟨500, []⟩) = [] ∧
    getTrainStopsInfo (some "S08409") 0 (Sum.inr []) (fun _ => Except.error "timeout") = [] ∧
    getStationRegionId (Except.error "ECONNREFUSED") = -1 ∧
    (getTrainAutocomplete (Except.ok ⟨503, ""⟩)).isLeft = true ∧
    (getTrainInfo (some "S08409") 0 (Sum.inr []) (fun _ => Except.error "timeout")).isLeft
      = true ∧
    getAllTrains (Except.ok ⟨200, [rawSegA]⟩) (fun _ _ => Except.error "socket hang up") =
      Sum.inl "socket hang up" :=
  errorHandling_spec (Except.error "ECONNREFUSED") rfl true true (Except.ok ⟨500, []⟩) rfl
    "S08409" 0 (Sum.inr []) (fun _ => Except.error "timeout") rfl
    (Except.error "ECONNREFUSED") rfl (Except.ok ⟨503, ""⟩) rfl
    (fun _ => Except.error "timeout") rfl (Except.ok ⟨200, [rawSegA]⟩)
    (fun _ _ => Except.error "socket hang up") "socket hang up" (fun _ _ => rfl) (by decide)

/-! ### C9 — a segment-catalog failure yields the empty list, not an error -/

/-- C9: when the segment-catalog request itself fails (`getAllSegments`
returns `[]`), `getAllTrains` fans out zero detail requests and returns the
empty train list (`Sum.inr []`), not an error object — indistinguishable from
a network with no running trains. -/
theorem segmentFailure_yields_empty (segT : Transport (List RawSegment))
    (h : httpFailed segT = true)
    (detail : Nat → Nat → Except String (List SegmentDetail)) :
    getAllTrains segT detail = Sum.inr [] := by
  have hseg : getAllSegments true false segT = [] := by
    cases segT with
    | error err => rfl
    | ok res =>
      have hs' : res.status ≠ 200 := by simpa [httpFailed] using h
      simp [getAllSegments, hs']
  rw [getAllTrains_eq, hseg]
  rfl

/-- C9 witness: a rejected `elencoTratte` request, with a detail fetcher that
would fail loudly if it were ever consulted. -/
theorem segmentFailure_yields_empty_witness :
    getAllTrains (Except.error "ECONNREFUSED") (fun _ _ => Except.error "never called") =
      Sum.inr [] :=
  segmentFailure_yields_empty (Except.error "ECONNREFUSED") rfl
    (fun _ _ => Except.error "never called")

/-! ### C10 — missing autocomplete entry in `getTrainStopsInfo` -/

/-- C10: with `stationIdA` omitted, when the autocomplete result has no entry
at index `segmentN` (no matches, an index past the end, or an error object),
`getTrainStopsInfo` returns the empty sequence for every transport — the
`TypeError` from `(...)[segmentN].stationIdA` is swallowed by the `catch`. -/
theorem stopsInfo_missing_match (segmentN : Nat) (auto : String ⊕ List AutoMatch)
    (transport : String → Transport (List CanvasStop))
    (h : autoIndex auto segmentN = none) :
    getTrainStopsInfo none segmentN auto transport = [] := by
  simp [getTrainStopsInfo, resolveStationId, h]

/-- C10 witness: an empty match list (index 0 missing) and an error-object
result (upstream failure), each with a transport that would return stops if
it were ever reached. -/
theorem stopsInfo_missing_match_witness :
    getTrainStopsInfo none 0 (Sum.inr []) (fun _ => Except.ok ⟨200, []⟩) = [] ∧
    getTrainStopsInfo none 2 (Sum.inl "Error: getaddrinfo ENOTFOUND")
      (fun _ => Except.ok ⟨200, []⟩) = [] :=
  ⟨stopsInfo_missing_match 0 (Sum.inr []) (fun _ => Except.ok ⟨200, []⟩) rfl,
   stopsInfo_missing_match 2 (Sum.inl "Error: getaddrinfo ENOTFOUND")
     (fun _ => Except.ok ⟨200, []⟩) rfl⟩

/-! ### C3 — train deduplication by (trainNumber, regionId) -/

/-- The train dedup key separates exactly the `(trainNumber, regionId)`
pairs: `` `${u.trainNumber}-${u.regionId}` `` equality coincides with
componentwise equality. -/
theorem trainKey_beq (u t : Train) :
    (jsKey2 u.trainNumber u.regionId == jsKey2 t.trainNumber t.regionId) =
      (u.trainNumber == t.trainNumber && u.regionId == t.regionId) := by
  by_cases h1 : u.trainNumber = t.trainNumber
  · by_cases h2 : u.regionId = t.regionId
    · simp [h1, h2]
    · have hk : jsKey2 u.trainNumber u.regionId ≠ jsKey2 t.trainNumber t.regionId :=
        fun he => h2 (jsKey2_inj _ _ _ _ he).2
      rw [beq_eq_false_iff_ne.mpr hk, beq_eq_false_iff_ne.mpr h2]
      simp
  · have hk : jsKey2 u.trainNumber u.regionId ≠ jsKey2 t.trainNumber t.regionId :=
      fun he => h1 (jsKey2_inj _ _ _ _ he).1
    rw [beq_eq_false_iff_ne.mpr hk, beq_eq_false_iff_ne.mpr h1]
    simp

/-- C3: the aggregator's deduplication keys on the pair
`(trainNumber, regionId)`: every train in the input is represented in the
output by a record with its exact pair (so two trains sharing a number but in
different regions both appear); exactly one record per pair survives; and the
survivor for a pair is the LAST record with that pair in iteration order. -/
theorem dedup_by_number_and_region (l : List Train) :
    (∀ t1 ∈ l, ∀ t2 ∈ l, t1.trainNumber = t2.trainNumber → t1.regionId ≠ t2.regionId →
      (∃ u ∈ dedupTrains l, u.trainNumber = t1.trainNumber ∧ u.regionId = t1.regionId) ∧
      (∃ u ∈ dedupTrains l, u.trainNumber = t2.trainNumber ∧ u.regionId = t2.regionId)) ∧
    (∀ t ∈ l,
      ((dedupTrains l).filter
        (fun u => u.trainNumber == t.trainNumber && u.regionId == t.regionId)).length = 1) ∧
    (∀ t ∈ l, ∀ u,
      l.reverse.find? (fun z => z.trainNumber == t.trainNumber && z.regionId == t.regionId)
        = some u → u ∈ dedupTrains l) := by
  have hrepr : ∀ t ∈ l, ∃ u ∈ dedupTrains l,
      u.trainNumber = t.trainNumber ∧ u.regionId = t.regionId := by
    intro t ht
    rw [dedupTrains_eq_keyedDedup]
    obtain ⟨u, hu, hk⟩ :=
      keyedDedup_represents (fun t => jsKey2 t.trainNumber t.regionId) l t ht
    exact ⟨u, hu, (jsKey2_inj _ _ _ _ hk).1, (jsKey2_inj _ _ _ _ hk).2⟩
  refine ⟨fun t1 h1 t2 h2 _ _ => ⟨hrepr t1 h1, hrepr t2 h2⟩, ?_, ?_⟩
  · intro t ht
    rw [dedupTrains_eq_keyedDedup,
      show (fun u : Train => u.trainNumber == t.trainNumber && u.regionId == t.regionId) =
        (fun u : Train => jsKey2 u.trainNumber u.regionId ==
          jsKey2 t.trainNumber t.regionId) from funext fun u => (trainKey_beq u t).symm]
    exact keyedDedup_key_count _ l t ht
  · intro t _ u hu
    rw [dedupTrains_eq_keyedDedup]
    refine keyedDedup_last_wins _ l (jsKey2 t.trainNumber t.regionId) u ?_
    rw [show (fun z : Train => jsKey2 z.trainNumber z.regionId ==
        jsKey2 t.trainNumber t.regionId) =
      (fun z : Train => z.trainNumber == t.trainNumber && z.regionId == t.regionId)
      from funext fun z => trainKey_beq z t]
    exact hu

/-- A plain normalized train to build concrete test inputs from. -/
def trainBase : Train :=
  { departed := true, arrived := false, travelling := true, inStation := false,
    departureTime := 1762124400000, segmentId := 5, regionId := 1, trainCategory := "FR",
    trainNumber := 9516, changingNumber := false, stationA := "ROMA TERMINI",
    stationIdA := "S08409", stationB := "MILANO CENTRALE", stationIdB := "S01700",
    travelDuration := some 135, delay := 0, latestDetection := 11 }

/-- Train 9516 in region 3. -/
def train9516r3 : Train := { trainBase with regionId := 3 }

/-- Train 9516 in region 7. -/
def train9516r7 : Train := { trainBase with regionId := 7 }

/-- A later record with the same `(9516, 3)` key but a different payload. -/
def train9516r3b : Train := { trainBase with regionId := 3, delay := 5 }

/-- C3 witness: trains `(9516, 3)` and `(9516, 7)` both survive; two records
with the identical key `(9516, 3)` leave exactly one survivor, namely the
later one. -/
theorem dedup_by_number_and_region_witness :
    ((∃ u ∈ dedupTrains [train9516r3, train9516r7],
        u.trainNumber = train9516r3.trainNumber ∧ u.regionId = train9516r3.regionId) ∧
     (∃ u ∈ dedupTrains [train9516r3, train9516r7],
        u.trainNumber = train9516r7.trainNumber ∧ u.regionId = train9516r7.regionId)) ∧
    ((dedupTrains [train9516r3, train9516r3b]).filter
      (fun u => u.trainNumber == train9516r3.trainNumber &&
        u.regionId == train9516r3.regionId)).length = 1 ∧
    train9516r3b ∈ dedupTrains [train9516r3, train9516r3b] :=
  ⟨(dedup_by_number_and_region [train9516r3, train9516r7]).1 train9516r3 (by decide)
      train9516r7 (by decide) rfl (by decide),
   (dedup_by_number_and_region [train9516r3, train9516r3b]).2.1 train9516r3 (by decide),
   (dedup_by_number_and_region [train9516r3, train9516r3b]).2.2 train9516r3 (by decide)
      train9516r3b (by decide)⟩

/-! ### C4 — unique segments by (segmentIdAB, segmentIdBA) -/

/-- The segment dedup key separates exactly the `(trattaAB, trattaBA)`
pairs. -/
theorem segKey_beq (u s : RawSegment) :
    (jsKey2 u.trattaAB u.trattaBA == jsKey2 s.trattaAB s.trattaBA) =
      (u.trattaAB == s.trattaAB && u.trattaBA == s.trattaBA) := by
  by_cases h1 : u.trattaAB = s.trattaAB
  · by_cases h2 : u.trattaBA = s.trattaBA
    · simp [h1, h2]
    · have hk : jsKey2 u.trattaAB u.trattaBA ≠ jsKey2 s.trattaAB s.trattaBA :=
        fun he => h2 (jsKey2_inj _ _ _ _ he).2
      rw [beq_eq_false_iff_ne.mpr hk, beq_eq_false_iff_ne.mpr h2]
      simp
  · have hk : jsKey2 u.trattaAB u.trattaBA ≠ jsKey2 s.trattaAB s.trattaBA :=
      fun he => h1 (jsKey2_inj _ _ _ _ he).1
    rw [beq_eq_false_iff_ne.mpr hk, beq_eq_false_iff_ne.mpr h1]
    simp

/-- C4: the output of `fetchSegments(unique = true)` never contains two
records sharing the `(segmentIdAB, segmentIdBA)` pair, and contains exactly
one record per distinct pair occurring in the upstream list. -/
theorem uniqueSegments_spec (raws : List RawSegment) :
    ((getAllSegments true false (Except.ok ⟨200, raws⟩)).Pairwise
      (fun a b => ¬(a.segmentIdAB = b.segmentIdAB ∧ a.segmentIdBA = b.segmentIdBA))) ∧
    (∀ s ∈ raws,
      ((getAllSegments true false (Except.ok ⟨200, raws⟩)).filter
        (fun m => m.segmentIdAB == s.trattaAB && m.segmentIdBA == s.trattaBA)).length
        = 1) := by
  have hout : getAllSegments true false (Except.ok ⟨200, raws⟩) =
      (keyedDedup (fun el => jsKey2 el.trattaAB el.trattaBA) raws).map segOfRaw := rfl
  constructor
  · rw [hout, List.pairwise_map]
    refine (keyedDedup_pairwise _ raws).imp ?_
    intro a b hk hab
    refine hk ?_
    have h1 : a.trattaAB = b.trattaAB := hab.1
    have h2 : a.trattaBA = b.trattaBA := hab.2
    rw [h1, h2]
  · intro s hs
    rw [hout, List.filter_map, List.length_map]
    show (List.filter
        (fun u : RawSegment => u.trattaAB == s.trattaAB && u.trattaBA == s.trattaBA)
        (keyedDedup (fun el => jsKey2 el.trattaAB el.trattaBA) raws)).length = 1
    have hcongr : List.filter
        (fun u : RawSegment => u.trattaAB == s.trattaAB && u.trattaBA == s.trattaBA)
        (keyedDedup (fun el => jsKey2 el.trattaAB el.trattaBA) raws) =
      List.filter
        (fun u : RawSegment => jsKey2 u.trattaAB u.trattaBA == jsKey2 s.trattaAB s.trattaBA)
        (keyedDedup (fun el => jsKey2 el.trattaAB el.trattaBA) raws) :=
      List.filter_congr (fun u _ => (segKey_beq u s).symm)
    rw [hcongr]
    exact keyedDedup_key_count _ raws s hs

/-- A raw segment sharing `rawSegA`'s `(100, 101)` pair with a different
payload. -/
def rawSegB : RawSegment := { rawSegA with occupata := false, latitudineA := 42 }

/-- A raw segment with the distinct pair `(200, 201)`. -/
def rawSegC : RawSegment := { rawSegA with trattaAB := 200, trattaBA := 201 }

/-- C4 witness: with two records sharing the pair `(100, 101)` plus one with
`(200, 201)`, the unique output has exactly one record per distinct pair. -/
theorem uniqueSegments_spec_witness :
    ((getAllSegments true false (Except.ok ⟨200, [rawSegA, rawSegB, rawSegC]⟩)).filter
      (fun m => m.segmentIdAB == rawSegA.trattaAB &&
        m.segmentIdBA == rawSegA.trattaBA)).length = 1 ∧
    ((getAllSegments true false (Except.ok ⟨200, [rawSegA, rawSegB, rawSegC]⟩)).filter
      (fun m => m.segmentIdAB == rawSegC.trattaAB &&
        m.segmentIdBA == rawSegC.trattaBA)).length = 1 :=
  ⟨(uniqueSegments_spec [rawSegA, rawSegB, rawSegC]).2 rawSegA (by decide),
   (uniqueSegments_spec [rawSegA, rawSegB, rawSegC]).2 rawSegC (by decide)⟩

end Trenitalia
